import Mathlib

/-!
# Verification of the sage-local-dms ingestion core

Shallow embedding, in Lean 4, of the document-ingestion engine of the
`sage-local-dms` repository: the page segmenter/splitter, the retention
calculator, the content-ledger deduplication of the archive scanner, the
pattern classifier, the DataMatrix barcode extractor and payload parser,
the distributed lock, and personnel-file entry numbering.

Each definition is translated from the Python source (`dms/tasks.py`,
`dms/models.py`, `dms/signals.py`); the doc comment of every definition
names the source function it embeds.  External libraries (PDF
rasterisation, barcode decoding, Redis, the regular-expression engine for
user-supplied patterns) are abstracted as explicit parameters or input
data, never reimplemented.
-/

namespace DMS

/-! ## Segmenter / splitter (`split_pdf_by_datamatrix`, dms/tasks.py lines 296-432) -/

/-- A contiguous run of pages attributed to at most one employee.
Mirrors the dicts `{'employee_id': ..., 'pages': [...]}` built by
`split_pdf_by_datamatrix`; pages are 0-based page indices. -/
structure Segment where
  employee_id : Option String
  pages : List Nat
deriving Repr, DecidableEq

/-- The page-grouping loop of `split_pdf_by_datamatrix` (tasks.py 330-364):
iterate pages in order with their detected employee id; a detected id that
differs from the current segment's id closes the current segment (if it has
pages) and opens a new one; otherwise the page is appended to the current
segment, and a detected id equal to the current one re-stores it. -/
def groupPagesAux : List (Option String) → Nat → Segment → List Segment → List Segment
  | [], _, cur, acc =>
      -- `if current_segment['pages']: segments.append(current_segment)`
      if cur.pages.isEmpty then acc else acc ++ [cur]
  | pid :: rest, i, cur, acc =>
      match pid with
      | some e =>
          if some e ≠ cur.employee_id then
            -- `if current_segment['pages']: segments.append(...)`, then start fresh
            let acc' := if cur.pages.isEmpty then acc else acc ++ [cur]
            groupPagesAux rest (i + 1) ⟨some e, [i]⟩ acc'
          else
            -- same id: append page, re-store the (identical) id
            groupPagesAux rest (i + 1) ⟨some e, cur.pages ++ [i]⟩ acc
      | none =>
          -- no detected id: carry-forward append to the current segment
          groupPagesAux rest (i + 1) ⟨cur.employee_id, cur.pages ++ [i]⟩ acc

/-- Grouping of a page-id sequence into segments, starting from the empty
current segment `{'employee_id': None, 'pages': []}` (tasks.py 326). -/
def groupPages (ids : List (Option String)) : List Segment :=
  groupPagesAux ids 0 ⟨none, []⟩ []

/-- The segmentation decision of `split_pdf_by_datamatrix` (tasks.py 317-385),
as a pure function of the per-page detected employee ids:

* a document of at most one page is never split (line 321);
* pages are grouped by `groupPages`;
* if at most one segment carries an employee id, no split happens and no
  sub-documents are produced (lines 366-371, the function returns `[]`);
* otherwise an id-less leading segment is merged into the segment that
  follows it (lines 373-375) and one sub-document is materialised per
  remaining segment (lines 385-421; the PDF materialisation itself is
  abstracted away, the returned list carries each segment's id and pages).
-/
def split_pdf_by_datamatrix (ids : List (Option String)) : List Segment :=
  if ids.length ≤ 1 then []
  else
    let segments := groupPages ids
    if (segments.filter (fun s => s.employee_id.isSome)).length ≤ 1 then []
    else
      match segments with
      | s0 :: s1 :: rest =>
          if s0.employee_id.isNone then
            { s1 with pages := s0.pages ++ s1.pages } :: rest
          else s0 :: s1 :: rest
      | other => other

/-! ## Calendar dates and the retention calculator
(`calculate_entry_retention_date`, dms/signals.py lines 11-29) -/

/-- A calendar date, as Python's `datetime.date`. -/
structure Date where
  year : Nat
  month : Nat
  day : Nat
deriving Repr, DecidableEq

/-- Gregorian leap year. -/
def isLeapYear (y : Nat) : Bool :=
  y % 4 == 0 && (y % 100 != 0 || y % 400 == 0)

/-- Length of a month in the Gregorian calendar. -/
def daysInMonth (y m : Nat) : Nat :=
  if m == 2 then (if isLeapYear y then 29 else 28)
  else if m == 4 || m == 6 || m == 9 || m == 11 then 30
  else 31

/-- `d + relativedelta(years=n)` (dateutil): the year is advanced by `n`
and, if the resulting day does not exist in the target month (29 February
in a non-leap year), the day falls back to the last valid day. -/
def addYears (d : Date) (n : Nat) : Date :=
  let y := d.year + n
  { year := y, month := d.month, day := min d.day (daysInMonth y d.month) }

/-- `FileCategory.retention_trigger` choices (dms/models.py 367-376). -/
inductive RetentionTrigger
  | CREATION
  | EXIT
  | DOCUMENT_DATE
deriving Repr, DecidableEq

/-- The fields of `FileCategory` the retention calculator reads
(dms/models.py 347-380). -/
structure FileCategoryRec where
  retention_years : Nat
  retention_trigger : RetentionTrigger
deriving Repr, DecidableEq

/-- The fields of `PersonnelFile` the retention calculator reads
(dms/models.py 398-430): the nullable closing date. -/
structure PersonnelFileRec where
  closed_at : Option Date
deriving Repr, DecidableEq

/-- The fields of `PersonnelFileEntry` the retention calculator reads
(dms/models.py 450-490): the creation timestamp (modelled by its date
part, as the source calls `.date()` on it), the nullable document date,
and the entry's category. -/
structure PersonnelFileEntryRec where
  created_at : Date
  document_date : Option Date
  category : FileCategoryRec
deriving Repr, DecidableEq

/-- `calculate_entry_retention_date(entry, pf)` (dms/signals.py 11-29):
`None` when the category's `retention_years` is 0; for trigger `EXIT` the
file's closing date plus the retention years, or `None` if the file is not
closed; for `CREATION` the entry's creation date plus the retention years;
for `DOCUMENT_DATE` the entry's document date plus the retention years,
falling back to the creation date when no document date is set. -/
def calculate_entry_retention_date (entry : PersonnelFileEntryRec)
    (pf : PersonnelFileRec) : Option Date :=
  let years := entry.category.retention_years
  if years = 0 then none
  else
    match entry.category.retention_trigger with
    | .EXIT =>
        match pf.closed_at with
        | some c => some (addYears c years)
        | none => none
    | .CREATION => some (addYears entry.created_at years)
    | .DOCUMENT_DATE =>
        match entry.document_date with
        | some d => some (addYears d years)
        | none => some (addYears entry.created_at years)

/-! ## Distributed lock (`distributed_lock`, dms/tasks.py lines 112-147)

The lock is a `@contextmanager` generator around a Redis `SET key value
NX EX timeout`.  The Redis round trip is abstracted as its outcome: either
the `set` call returns (with the lock acquired or not), or it raises a
`redis.exceptions.ConnectionError`.  The embedding tracks Python local
variable scoping explicitly: the local `acquired` is bound only by the
`acquired = client.set(...)` statement inside the `try:` block, so it is
an *unbound* local in the `finally:` block whenever that statement raised;
reading an unbound local raises `UnboundLocalError` in Python. -/

/-- Outcome of the single `client.set(lock_key, lock_value, nx=True,
ex=timeout)` call (tasks.py 125). -/
inductive RedisSetOutcome
  | ok (acquired : Bool)
  | connError
deriving Repr, DecidableEq

/-- What one use of `with distributed_lock(name) as acquired:` does,
observed from the caller. -/
structure LockRun where
  /-- The value the context manager yields (bound to `acquired` in the
  caller's `with` statement). -/
  enteredWith : Bool
  /-- Whether the guarded block runs (a `@contextmanager` always runs the
  body once the generator reached its `yield`). -/
  bodyRan : Bool
  /-- Whether `logger.error` was called (tasks.py 130). -/
  errorLogged : Bool
  /-- The exception, if any, that propagates to the caller when the
  context manager exits (i.e. out of the generator's `finally:` block). -/
  exitException : Option String
deriving Repr, DecidableEq

/-- The `try:`/`except redis.exceptions.ConnectionError` part of
`distributed_lock` (tasks.py 123-132), up to and including the `yield`:
returns the state of the local `acquired` (`none` = never bound), the
yielded value, and whether the connection error was logged at error
severity.  On success the lock outcome is yielded as `bool(acquired)`;
on a connection error the comment "Bei Verbindungsfehler: Lock
überspringen, Task trotzdem ausführen" applies and `True` is yielded. -/
def lockAcquirePhase : RedisSetOutcome → Option Bool × Bool × Bool
  | .ok v => (some v, v, false)
  | .connError => (none, true, true)

/-- The `finally:` block of `distributed_lock` (tasks.py 133-147):
`if acquired:` reads the local `acquired`; if it was never bound this
read raises `UnboundLocalError`; if it holds `True` the compare-and-delete
Lua script runs (its own exceptions are caught and logged as a warning,
tasks.py 143-147, so they never propagate); if `False`, nothing happens. -/
def lockFinallyPhase : Option Bool → Option String
  | none => some "UnboundLocalError"
  | some true => none
  | some false => none

/-- `distributed_lock(lock_name, timeout)` (tasks.py 112-147) as observed
by a caller executing `with distributed_lock(...) as acquired: <body>`. -/
def distributed_lock (o : RedisSetOutcome) : LockRun :=
  let (acquired, yielded, logged) := lockAcquirePhase o
  { enteredWith := yielded
    bodyRan := true
    errorLogged := logged
    exitException := lockFinallyPhase acquired }

/-! ## Personnel-file entry numbering
(`PersonnelFileEntry.save`, dms/models.py lines 490-500) -/

/-- The identifying fields of a stored `PersonnelFileEntry` row: the
personnel file it belongs to (by id) and its entry number. -/
structure PFEntryRow where
  personnel_file : Nat
  entry_number : Nat
deriving Repr, DecidableEq

/-- Entry numbers already used in a personnel file:
`PersonnelFileEntry.objects.filter(personnel_file=...)` projected to
`entry_number`. -/
def numbersFor (db : List PFEntryRow) (pf : Nat) : List Nat :=
  (db.filter (fun r => r.personnel_file == pf)).map (fun r => r.entry_number)

/-- `...filter(personnel_file=...).order_by('-entry_number').first()`
(dms/models.py 492-494): the largest used entry number, as the head of the
descending ordering; `none` when the file has no entries yet. -/
def lastEntryNumber (db : List PFEntryRow) (pf : Nat) : Option Nat :=
  match numbersFor db pf with
  | [] => none
  | ns => some (ns.foldr max 0)

/-- The number `PersonnelFileEntry.save` stores (dms/models.py 490-496):
when the entry has no (truthy) preset number, `last_entry.entry_number + 1`
if an entry exists, else `1`.  Python's `if not self.entry_number` treats
both an unset (`none`) and a zero preset as "no number". -/
def pfe_entry_number (db : List PFEntryRow) (pf : Nat) (preset : Option Nat) : Nat :=
  let auto :=
    match lastEntryNumber db pf with
    | some last => last + 1
    | none => 1
  match preset with
  | none => auto
  | some k => if k = 0 then auto else k

/-- `PersonnelFileEntry.save` followed by the database insert
(dms/models.py 490-500): the number is assigned, and the
`unique_together = ['personnel_file', 'entry_number']` constraint makes
the insert fail with an `IntegrityError` if the pair is already taken. -/
def pfe_save (db : List PFEntryRow) (pf : Nat) (preset : Option Nat) :
    Except String (List PFEntryRow × Nat) :=
  let n := pfe_entry_number db pf preset
  if db.any (fun r => r.personnel_file == pf && r.entry_number == n) then
    .error "IntegrityError"
  else
    .ok (db ++ [⟨pf, n⟩], n)

/-! ## DataMatrix payload parsing
(`parse_employee_id_from_datamatrix`, dms/tasks.py lines 242-288)

The function is a cascade of constant regular expressions applied with
`re.search(..., re.IGNORECASE)`.  Each constant pattern is hand-compiled
here into an explicit leftmost-search string scanner over `List Char`.
Character classes are modelled as follows:

* `\s` (and `str.strip` / `str.split`): the six ASCII whitespace
  characters Python uses;
* `\d`: the ASCII digits `0`-`9` (Python's `\d` also matches other
  Unicode decimal digits, which no input considered here contains);
* `str.isdigit`: the ASCII digits *plus* further Unicode characters with
  a numeric digit property; of those the model includes the superscript
  digits `¹ ² ³`, enough to cover the non-ASCII payloads analysed here.
-/

/-- Python whitespace (`\s`, `str.strip()`, `str.split()`). -/
def pyWs (c : Char) : Bool :=
  c == ' ' || c == '\t' || c == '\n' || c == '\r' || c == '\x0b' || c == '\x0c'

/-- A `\d` character: ASCII decimal digit. -/
def asciiDigit (c : Char) : Bool := c.isDigit

/-- A character Python's `str.isdigit` accepts: ASCII digits, plus (in
this model) the Unicode superscript digits, which Python also classifies
as digits although they are not decimal digits. -/
def pyIsDigitChar (c : Char) : Bool :=
  c.isDigit || c == '¹' || c == '²' || c == '³'

/-- Python `str.isdigit()`: nonempty and every character is a digit
character in Python's sense. -/
def pyStrIsDigit (s : List Char) : Bool :=
  !s.isEmpty && s.all pyIsDigitChar

/-- Drop leading Python whitespace. -/
def stripLeft : List Char → List Char
  | [] => []
  | c :: r => if pyWs c then stripLeft r else c :: r

/-- Python `str.strip()`: drop whitespace at both ends. -/
def pyStrip (s : List Char) : List Char :=
  stripLeft ((stripLeft s.reverse).reverse)

/-- Case-insensitive literal match at the start of `s` (the effect of
`re.IGNORECASE` on a literal): returns the rest of `s` on success. -/
def ciStarts : List Char → List Char → Option (List Char)
  | [], s => some s
  | _ :: _, [] => none
  | l :: ls, c :: cs => if l.toLower == c.toLower then ciStarts ls cs else none

/-- `re.search` position scan: try the position matcher `f` at every
suffix of `s`, leftmost first. -/
def searchPositions (f : List Char → Option (List Char)) :
    List Char → Option (List Char)
  | [] => f []
  | c :: r =>
      match f (c :: r) with
      | some v => some v
      | none => searchPositions f r

/-- `r'\^1008=([^^\s]+)\^'` matched at one position: the literal
`^1008=`, then a nonempty run of characters that are neither `^` nor
whitespace, terminated by `^`; captures the run. -/
def pat1008At (s : List Char) : Option (List Char) :=
  match ciStarts "^1008=".data s with
  | none => none
  | some rest =>
      let run := rest.takeWhile (fun c => !(c == '^') && !(pyWs c))
      let rest' := rest.dropWhile (fun c => !(c == '^') && !(pyWs c))
      if run.isEmpty then none
      else match rest' with
        | '^' :: _ => some run
        | _ => none

/-- A labelled pattern `r'LABEL[:\s]*(\d+)'` matched at one position:
the label case-insensitively, an arbitrary run of `:` or whitespace, then
a nonempty digit run, which is captured. -/
def labelledAt (label : List Char) (s : List Char) : Option (List Char) :=
  match ciStarts label s with
  | none => none
  | some rest =>
      let afterSep := rest.dropWhile (fun c => c == ':' || pyWs c)
      let run := afterSep.takeWhile asciiDigit
      if run.isEmpty then none else some run

/-- `r'\^1010=(\d+)'` matched at one position. -/
def pat1010At (s : List Char) : Option (List Char) :=
  match ciStarts "^1010=".data s with
  | none => none
  | some rest =>
      let run := rest.takeWhile asciiDigit
      if run.isEmpty then none else some run

/-- `r'^(\d{4,8})$'` under `re.search` without `re.MULTILINE`: anchored at
the start of the (already stripped) string, it matches exactly when the
whole string is 4 to 8 digits. -/
def wholeDigits48 (s : List Char) : Option (List Char) :=
  if s.all asciiDigit && 4 ≤ s.length && s.length ≤ 8 then some s else none

/-- A delimited pattern `r'D(\d+)D'` (`\|(\d+)\|` or `;(\d+);`) matched at
one position: the delimiter, a nonempty digit run, the delimiter again. -/
def delimitedAt (d : Char) (s : List Char) : Option (List Char) :=
  match s with
  | c :: rest =>
      if c == d then
        let run := rest.takeWhile asciiDigit
        let rest' := rest.dropWhile asciiDigit
        if run.isEmpty then none
        else match rest' with
          | c' :: _ => if c' == d then some run else none
          | [] => none
      else none
  | [] => none

/-- `r'=(\d{1,10})\^'` matched at one position: `=`, a digit run of
length 1 to 10, then `^`.  A run longer than 10 digits can never satisfy
the trailing `\^` at this position (every backtracking stop is followed by
a further digit), so the pattern matches exactly when the full run has
length 1-10 and is followed by `^`. -/
def eqCaretAt (s : List Char) : Option (List Char) :=
  match s with
  | '=' :: rest =>
      let run := rest.takeWhile asciiDigit
      let rest' := rest.dropWhile asciiDigit
      if run.isEmpty || run.length > 10 then none
      else match rest' with
        | '^' :: _ => some run
        | _ => none
  | _ => none

/-- First `\d+` run inside a string (`re.search(r'(\d+)', value)`). -/
def firstDigitRun : List Char → Option (List Char)
  | [] => none
  | c :: r =>
      if asciiDigit c then some ((c :: r).takeWhile asciiDigit)
      else firstDigitRun r

/-- Post-processing of a captured group (tasks.py 276-281): return the
capture if it `isdigit()`, otherwise its first digit run, otherwise fall
through to the next pattern. -/
def postCapture (v : List Char) : Option (List Char) :=
  if pyStrIsDigit v then some v else firstDigitRun v

/-- The pattern cascade of tasks.py 258-281, in source order; the first
pattern whose match post-processes to a digit string wins. -/
def tryPatterns (s : List Char) : Option (List Char) :=
  (searchPositions pat1008At s >>= postCapture) <|>
  (searchPositions pat1010At s >>= postCapture) <|>
  (searchPositions (labelledAt "PersNr".data) s >>= postCapture) <|>
  (searchPositions (labelledAt "Personalnummer".data) s >>= postCapture) <|>
  (searchPositions (labelledAt "PersonalNr".data) s >>= postCapture) <|>
  (searchPositions (labelledAt "MA".data) s >>= postCapture) <|>
  (searchPositions (labelledAt "EmpID".data) s >>= postCapture) <|>
  (searchPositions (labelledAt "EmployeeID".data) s >>= postCapture) <|>
  (wholeDigits48 s >>= postCapture) <|>
  (searchPositions (delimitedAt '|') s >>= postCapture) <|>
  (searchPositions (delimitedAt ';') s >>= postCapture) <|>
  (searchPositions eqCaretAt s >>= postCapture)

/-- A delimiter of the final fallback split
`re.split(r'[|;,\s\^=]+', raw_data)` (tasks.py 283). -/
def isSplitDelim (c : Char) : Bool :=
  c == '|' || c == ';' || c == ',' || pyWs c || c == '^' || c == '='

mutual

/-- `re.split` on delimiter runs: accumulate the current field. -/
def splitDelimsAux : List Char → List Char → List (List Char)
  | [], cur => [cur.reverse]
  | c :: r, cur =>
      if isSplitDelim c then cur.reverse :: skipDelims r
      else splitDelimsAux r (c :: cur)

/-- `re.split` on delimiter runs: inside a run of delimiters. -/
def skipDelims : List Char → List (List Char)
  | [] => [[]]
  | c :: r => if isSplitDelim c then skipDelims r else splitDelimsAux r [c]

end

/-- `re.split(r'[|;,\s\^=]+', s)`: fields separated by runs of the
delimiter class; a leading or trailing run yields an empty field, runs
never yield empty interior fields. -/
def pySplitDelims (s : List Char) : List (List Char) :=
  splitDelimsAux s []

/-- `parse_employee_id_from_datamatrix(raw_data)` (dms/tasks.py 242-288)
over `List Char`: `None` for a falsy (missing or empty) payload; the
stripped payload itself when it `isdigit()`; otherwise the first matching
pattern of the cascade; otherwise the first 1-10 character digit field of
the delimiter split; otherwise `None`. -/
def parseEmployeeIdChars (raw : Option (List Char)) : Option (List Char) :=
  match raw with
  | none => none
  | some s0 =>
      if s0.isEmpty then none
      else
        let s := pyStrip s0
        if pyStrIsDigit s then some s
        else
          match tryPatterns s with
          | some v => some v
          | none =>
              (pySplitDelims s).findSome? (fun p =>
                if pyStrIsDigit p && 1 ≤ p.length && p.length ≤ 10 then some p
                else none)

/-- `parse_employee_id_from_datamatrix` on Python strings. -/
def parse_employee_id_from_datamatrix (raw : Option String) : Option String :=
  (parseEmployeeIdChars (raw.map String.data)).map (fun l => String.mk l)

/-! ## Barcode extractor
(`extract_employee_from_datamatrix`, dms/tasks.py lines 167-239)

The PDF rasterisation and DataMatrix decoding (`fitz`, `pylibdmtx`) are
abstracted as input data: the list of decoded payload strings per page.
The two ways the `try:` body can stop early are also part of the input:

* `timeoutBudget = some k`: the `SIGALRM` handler raises `TimeoutError`
  after `k` payloads have been fully handled (the alarm may fire at any
  bytecode boundary; the model places it at payload boundaries).  The
  `except TimeoutError` branch (tasks.py 231-235) sets
  `result['success'] = True` and `result['error'] = 'Timeout'` and returns
  the partially filled result.
* `failBudget = some k`: any other exception (a failing `fitz.open`,
  a payload that is not valid UTF-8, ...) is raised after `k` payloads;
  the `except Exception` branch (tasks.py 236-239) leaves
  `result['success'] = False`, records the message and returns the
  partially filled result.

`none` means the corresponding interruption never happens.  In every case
the function *returns* the result record — no exception escapes. -/

/-- The result dict of `extract_employee_from_datamatrix`
(tasks.py 181-186): `codes` holds `(page, raw)` pairs. -/
structure DmResult where
  success : Bool
  error : Option String
  codes : List (Nat × String)
  employee_ids : List String
deriving Repr, DecidableEq

/-- Input to the extractor: decoded payloads per page plus the
interruption points (see section comment). -/
structure DmInput where
  pages : List (List String)
  timeoutBudget : Option Nat
  failBudget : Option Nat
deriving Repr

/-- Handle the payloads of one page (tasks.py 210-217): each decoded
payload is appended to `codes`, and its parsed employee id — if any and
not yet present — to `employee_ids`.  Stops with the partially filled
result if the timeout or an exception fires first.  On completion returns
the remaining budgets and the updated lists. -/
def dmPagePayloads (pageNum : Nat) :
    List String → Option Nat → Option Nat → List (Nat × String) → List String →
    Sum DmResult (Option Nat × Option Nat × List (Nat × String) × List String)
  | [], tb, fb, codes, ids => .inr (tb, fb, codes, ids)
  | raw :: more, tb, fb, codes, ids =>
      if tb == some 0 then
        .inl { success := true, error := some "Timeout", codes := codes,
               employee_ids := ids }
      else if fb == some 0 then
        .inl { success := false, error := some "Exception", codes := codes,
               employee_ids := ids }
      else
        let codes' := codes ++ [(pageNum, raw)]
        let ids' :=
          match parse_employee_id_from_datamatrix (some raw) with
          | some e => if ids.contains e then ids else ids ++ [e]
          | none => ids
        dmPagePayloads pageNum more (tb.map (· - 1)) (fb.map (· - 1)) codes' ids'

/-- The page loop of `extract_employee_from_datamatrix`
(tasks.py 204-223): scan pages in order; after each page, stop as soon as
an employee id has been found; after the last page the result is returned
with `success = True`. -/
def dmPageLoop :
    List (List String) → Nat → Option Nat → Option Nat →
    List (Nat × String) → List String → DmResult
  | [], _, _, _, codes, ids =>
      { success := true, error := none, codes := codes, employee_ids := ids }
  | ps :: rest, pageNum, tb, fb, codes, ids =>
      match dmPagePayloads pageNum ps tb fb codes ids with
      | .inl res => res
      | .inr (tb', fb', codes', ids') =>
          if ids'.isEmpty then dmPageLoop rest (pageNum + 1) tb' fb' codes' ids'
          else { success := true, error := none, codes := codes',
                 employee_ids := ids' }

/-- `extract_employee_from_datamatrix(file_path, max_pages, timeout_seconds)`
(dms/tasks.py 167-239).  `pages_to_scan = min(len(doc), max_pages)` is
modelled by `take max_pages`; an interruption before anything is decoded
yields the empty result with the corresponding flags. -/
def extract_employee_from_datamatrix (inp : DmInput) (max_pages : Nat) : DmResult :=
  if inp.failBudget == some 0 then
    { success := false, error := some "Exception", codes := [], employee_ids := [] }
  else if inp.timeoutBudget == some 0 then
    { success := true, error := some "Timeout", codes := [], employee_ids := [] }
  else
    dmPageLoop (inp.pages.take max_pages) 0 inp.timeoutBudget inp.failBudget [] []

/-! ## The scanner's use of the extractor
(`process_single_file`, dms/tasks.py lines 941-970)

After the split check, a PDF is passed to the extractor and the resulting
`dm_result` decides the document's employee and status; a non-PDF file is
classified by filename only.  `find_employee_by_id` (tasks.py 453-480) and
the personnel flag of `classify_sage_document` (tasks.py 619-633) are
abstracted as parameters. -/

/-- The `dm_result` branch of `process_single_file` (tasks.py 943-967):
returns the assigned employee id (if resolved) and the document status.
`findEmp e` abstracts `find_employee_by_id(e, tenant) is not None`;
`isPersonnelName` abstracts `classify_sage_document(name)[1]`. -/
def pdfDisposition (dm : DmResult) (findEmp : String → Bool)
    (isPersonnelName : Bool) : Option String × String :=
  if dm.success && !dm.employee_ids.isEmpty then
    match dm.employee_ids.find? findEmp with
    | some e => (some e, "ASSIGNED")
    | none => (none, "REVIEW_NEEDED")
  else if dm.success && !dm.codes.isEmpty then
    (none, "REVIEW_NEEDED")
  else
    if isPersonnelName then (none, "REVIEW_NEEDED") else (none, "COMPANY")

/-! ## Pattern classifier
(`auto_classify_document`, dms/tasks.py lines 19-98)

The rule set is read with
`MatchingRule.objects.filter(is_active=True).order_by('-priority')` and,
when a tenant is given, further filtered to
`Q(tenant=tenant) | Q(tenant__isnull=True)` (tasks.py 28-30).  The only
ordering the query imposes is *priority descending*; the relative order of
rows with equal priority is left to the database.  The embedding therefore
takes the rule list as an argument and characterises the lists the query
can deliver by the predicate `classifierOrder`.

The `MatchingRule` model itself is not part of the sources (only its
callers are); its fields are modelled from the spec and from their use in
`auto_classify_document`: algorithm, pattern, case-sensitivity flag,
priority, scope (global or tenant-specific) and assignment targets.
`REGEX` rules apply a user-supplied pattern through Python's `re` engine,
which is abstracted as the parameter `regexMatch pattern text caseSensitive`. -/

/-- `MatchingRule.algorithm` values (spec §3; tasks.py 45-70). -/
inductive MatchAlgorithm
  | EXACT
  | ANY
  | ALL
  | REGEX
  | FUZZY
deriving Repr, DecidableEq

/-- Modelled from the spec: the fields of `MatchingRule` read by
`auto_classify_document` (the model class is absent from the sources).
`tenant = none` is a global rule. -/
structure MatchingRule where
  is_active : Bool
  priority : Int
  tenant : Option String
  algorithm : MatchAlgorithm
  match_pattern : String
  is_case_sensitive : Bool
  assign_document_type : Option String
  assign_employee : Option String
  assign_status : Option String
  assign_tags : List String
deriving Repr, DecidableEq

/-- The classification state of a `Document` that
`auto_classify_document` reads and writes (dms/models.py 77-114). -/
structure ClassifyDoc where
  original_filename : String
  title : String
  document_type : Option String
  employee : Option String
  status : String
  tags : List String
deriving Repr, DecidableEq

/-- Python `str.lower()` (the patterns and filenames involved are ASCII,
where Python's lowering agrees with `Char.toLower`). -/
def pyToLower (s : String) : String := String.mk (s.data.map Char.toLower)

/-- Python `needle in haystack` on `List Char`: substring containment
(the empty needle is contained in everything). -/
def chContains : List Char → List Char → Bool
  | hay, pat =>
      (pat.isPrefixOf hay) ||
      match hay with
      | [] => false
      | _ :: t => chContains t pat

/-- Python `str.split()` (no argument): whitespace-separated tokens,
empties dropped. -/
def pySplitWs (s : List Char) : List (List Char) :=
  ((s.splitOnP pyWs).filter (fun t => !t.isEmpty))

/-- Positions with equal characters between a pattern word and an
equally long window of the text (tasks.py 65). -/
def eqPositions : List Char → List Char → Nat
  | a :: as, b :: bs => (if a == b then 1 else 0) + eqPositions as bs
  | _, _ => 0

/-- The `FUZZY` algorithm (tasks.py 59-70): some pattern word of length
at least 4 has a window of its length in the text agreeing on at least
80% of the positions.  The threshold `matches >= len(word) * 0.8` is
modelled exactly as `5 * matches ≥ 4 * len(word)`. -/
def fuzzyMatches (text : List Char) (pat : List Char) : Bool :=
  (pySplitWs pat).any (fun word =>
    word.length ≥ 4 &&
    (List.range (text.length + 1 - word.length)).any (fun i =>
      5 * eqPositions word ((text.drop i).take word.length) ≥ 4 * word.length))

/-- One rule's match test (tasks.py 34-70).  `search_text` is
`f"{document.original_filename} {document.title}"`; unless the rule is
case-sensitive, both text and pattern are lower-cased — except for
`REGEX`, which searches the *unmodified* text with the original pattern
and an `IGNORECASE` flag (tasks.py 53-57), here the abstract
`regexMatch pattern text caseSensitive`. -/
def ruleMatches (regexMatch : String → String → Bool → Bool)
    (rule : MatchingRule) (search_text : String) : Bool :=
  let text := if rule.is_case_sensitive then search_text else pyToLower search_text
  let pat := if rule.is_case_sensitive then rule.match_pattern
             else pyToLower rule.match_pattern
  match rule.algorithm with
  | .EXACT => chContains text.data pat.data
  | .ANY => (pySplitWs pat.data).any (fun w => chContains text.data w)
  | .ALL => (pySplitWs pat.data).all (fun w => chContains text.data w)
  | .REGEX => regexMatch rule.match_pattern search_text rule.is_case_sensitive
  | .FUZZY => fuzzyMatches text.data pat.data

/-- Applying a matching rule's assignments to a document
(tasks.py 72-94): the document type and employee are set only when not
already set; the status only when the rule assigns one and the document is
still `UNASSIGNED`/`NEW`; the rule's tags are always added. -/
def applyRule (rule : MatchingRule) (doc : ClassifyDoc) : ClassifyDoc :=
  let doc :=
    if rule.assign_document_type.isSome && doc.document_type.isNone then
      { doc with document_type := rule.assign_document_type }
    else doc
  let doc :=
    if rule.assign_employee.isSome && doc.employee.isNone then
      { doc with employee := rule.assign_employee }
    else doc
  let doc :=
    match rule.assign_status with
    | some st =>
        if doc.status == "UNASSIGNED" || doc.status == "NEW" then
          { doc with status := st }
        else doc
    | none => doc
  { doc with tags := doc.tags ++ rule.assign_tags }

/-- The search text `f"{document.original_filename} {document.title}"`
(tasks.py 32). -/
def searchTextOf (doc : ClassifyDoc) : String :=
  doc.original_filename ++ " " ++ doc.title

/-- `auto_classify_document(document, tenant)` (dms/tasks.py 19-98) on a
rule list in the order the database delivered it: the first rule that
matches is applied and evaluation stops (`return True` inside the loop);
if none matches the document is unchanged and `False` is returned. -/
def auto_classify_document (regexMatch : String → String → Bool → Bool) :
    List MatchingRule → ClassifyDoc → ClassifyDoc × Bool
  | [], doc => (doc, false)
  | r :: rs, doc =>
      if ruleMatches regexMatch r (searchTextOf doc) then (applyRule r doc, true)
      else auto_classify_document regexMatch rs doc

/-- What the rule query guarantees about the list it returns for a scan
of tenant `t` (tasks.py 28-30): every rule is active and either global or
of this tenant, and the list is sorted by priority descending.  Nothing
more — in particular no tie-break between global and tenant-specific
rules of equal priority. -/
def classifierOrder (t : String) (rules : List MatchingRule) : Prop :=
  (∀ r ∈ rules, r.is_active = true ∧ (r.tenant = none ∨ r.tenant = some t)) ∧
  rules.Pairwise (fun a b => b.priority ≤ a.priority)

/-! ## Content ledger and per-file scan processing
(`process_single_file` inside `_run_sage_scan`, dms/tasks.py lines 799-1053)

File contents are byte lists.  `calculate_sha256_chunked` is modelled as
the identity on contents: the model preserves exactly what the scanner
relies on — equal bytes have equal digests — and abstracts SHA-256
collision-freedom into distinct bytes having distinct digests.

`ProcessedFile` (dms/models.py 132-142) declares `sha256_hash` with
`unique=True`: content hashes are unique *globally*, across all scopes.
The `tenant` field stored and filtered by tasks.py (lines 735, 822, 922,
1019) is modelled from the spec's ledger description, `(scope,
content-hash) -> outcome` — the `Tenant` model and the field's
declaration are absent from the sources, only their callers are present.

The steps of `process_single_file` that the dedup claims do not depend on
(MIME sniffing, eager OCR-free classification metadata, matching-rule
classification of the created documents, progress logging) are omitted;
the order of the steps that matter is kept exactly: in-memory hash check,
database re-check filtered by tenant, document creation, ledger insert
(where the global unique constraint can raise `IntegrityError`), memory
update, counter update — and the enclosing `except` that turns any raised
exception into an error count (tasks.py 1049-1053). -/

/-- File contents. -/
abbrev Bytes := List Nat

/-- `calculate_sha256_chunked` (dms/encryption.py): the content digest,
modelled as the content itself (see section comment). -/
def calculate_sha256_chunked (b : Bytes) : Bytes := b

/-- A Content Ledger row (`ProcessedFile`, dms/models.py 132-142; the
`tenant` field modelled from the spec, see section comment).  `document`
is the id of the Document the content produced, or `none` when the file
was split into several documents (tasks.py 922-927). -/
structure ProcessedFile where
  tenant : String
  sha256_hash : Bytes
  original_path : String
  document : Option Nat
deriving Repr, DecidableEq

/-- The fields of a created `Document` row the scan claims speak about
(dms/models.py 77-114, created at tasks.py 895-909 and 1002-1017). -/
structure DocumentRow where
  id : Nat
  tenant : String
  content : Bytes
  sha256_hash : Bytes
  employee : Option String
  status : String
deriving Repr, DecidableEq

/-- The mutable state a scan run threads through `process_single_file`:
the database tables touched (documents, ledger), the shared in-memory
per-tenant known-hash set `known_hashes_by_tenant` (tasks.py 729-736,
guarded by `hashes_lock`), and the shared counters (guarded by
`counter_lock`). -/
structure ScanState where
  documents : List DocumentRow
  ledger : List ProcessedFile
  known_hashes : List (String × Bytes)
  processed_count : Nat
  already_processed_count : Nat
  error_count : Nat
  next_doc_id : Nat
deriving Repr, DecidableEq

/-- A candidate file of the scan: its path, the tenant folder it was
found under, and its bytes. -/
structure ScanFile where
  path : String
  tenant_code : String
  bytes : Bytes
deriving Repr, DecidableEq

/-- The capabilities of `process_single_file` that come from outside the
dedup logic, abstracted as functions:

* `pageIds`: per-page detected employee id of a PDF's content — the
  composition of `fitz` page rasterisation, `pylibdmtx` decoding and
  `parse_employee_id_from_datamatrix` that `split_pdf_by_datamatrix`
  performs per page (tasks.py 330-361);
* `isPersonnelName`: the personnel flag of
  `classify_sage_document(file_path.name)` (tasks.py 619-633, 859);
* `segmentBytes`: the bytes of the sub-PDF `fitz` builds from the given
  pages of a content (tasks.py 396-405);
* `findEmp e t`: whether `find_employee_by_id(e, tenant=t)` resolves an
  employee (tasks.py 453-480);
* `dmOutcome`: the `extract_employee_from_datamatrix` result for a
  content (tasks.py 941), including its interruption behaviour. -/
structure ScanEnv where
  pageIds : Bytes → List (Option String)
  isPersonnelName : String → Bool
  segmentBytes : Bytes → List Nat → Bytes
  findEmp : String → String → Bool
  dmOutcome : Bytes → DmResult

/-- `file_path.suffix.lower() == '.pdf'` (tasks.py 849): the lower-cased
path ends in `.pdf`. -/
def pathIsPdf (p : String) : Bool :=
  ".pdf".data.isSuffixOf (p.data.map Char.toLower)

/-- The documents created for the segments of a split bundle
(tasks.py 869-912): one per segment, in order, with ids from `firstId`;
an unresolved employee id yields status `REVIEW_NEEDED`, a resolved one
`ASSIGNED` (tasks.py 879-880). -/
def splitDocsFor (env : ScanEnv) (f : ScanFile) (segs : List Segment)
    (firstId : Nat) : List DocumentRow :=
  (List.range segs.length).filterMap (fun i =>
    match segs[i]? with
    | some seg =>
        let content := env.segmentBytes f.bytes seg.pages
        let emp := seg.employee_id.bind (fun e =>
          if env.findEmp e f.tenant_code then some e else none)
        some { id := firstId + i
               tenant := f.tenant_code
               content := content
               sha256_hash := calculate_sha256_chunked content
               employee := emp
               status := if emp.isSome then "ASSIGNED" else "REVIEW_NEEDED" }
    | none => none)

/-- The employee/status disposition of a file on the non-split path
(tasks.py 941-970): a PDF goes through the extractor and
`pdfDisposition`; any other file is classified by name only. -/
def simpleDisposition (env : ScanEnv) (f : ScanFile) : Option String × String :=
  if pathIsPdf f.path then
    pdfDisposition (env.dmOutcome f.bytes) (fun e => env.findEmp e f.tenant_code)
      (env.isPersonnelName f.path)
  else
    (none, if env.isPersonnelName f.path then "UNASSIGNED" else "COMPANY")

/-- Whether the multi-page personnel-PDF split branch is taken
(tasks.py 849-864): a PDF with more than one page whose filename
classifies as a personnel document and whose DataMatrix split yields more
than one sub-document. -/
def takesSplitPath (env : ScanEnv) (f : ScanFile) : Bool :=
  pathIsPdf f.path &&
  decide (1 < (env.pageIds f.bytes).length) &&
  env.isPersonnelName f.path &&
  decide (1 < (split_pdf_by_datamatrix (env.pageIds f.bytes)).length)

/-- `process_single_file(file_info)` (dms/tasks.py 799-1053).  In order:

1. chunked content hash (tasks.py 808);
2. thread-safe in-memory duplicate check against the tenant's known-hash
   set — a hit counts the file as already processed (tasks.py 810-819);
3. database re-check `ProcessedFile.objects.filter(tenant=tenant,
   sha256_hash=file_hash).exists()` — a hit also counts the file as
   already processed (tasks.py 821-825);
4. on the split path: create one document per segment, then the ledger
   row with `document=None`, add the hash to the memory set and count all
   split documents as processed (tasks.py 849-939);
5. otherwise: create the single document, then its ledger row, add the
   hash to the memory set and count the file as processed
   (tasks.py 968-1047).

Creating a ledger row whose hash already exists anywhere in the ledger
violates the model's global `unique=True` on `sha256_hash` and raises
`IntegrityError`; the surrounding `except` (tasks.py 1049-1053) catches
any exception and counts the file as an error — the documents created
before the failing insert are not rolled back. -/
def process_single_file (env : ScanEnv) (st : ScanState) (f : ScanFile) :
    ScanState :=
  let h := calculate_sha256_chunked f.bytes
  if st.known_hashes.any (fun p => p == (f.tenant_code, h)) then
    { st with already_processed_count := st.already_processed_count + 1 }
  else if st.ledger.any (fun e => e.tenant == f.tenant_code && e.sha256_hash == h) then
    { st with already_processed_count := st.already_processed_count + 1 }
  else if takesSplitPath env f then
    let segs := split_pdf_by_datamatrix (env.pageIds f.bytes)
    let docs := splitDocsFor env f segs st.next_doc_id
    let st1 := { st with documents := st.documents ++ docs
                         next_doc_id := st.next_doc_id + segs.length }
    if st1.ledger.any (fun e => e.sha256_hash == h) then
      { st1 with error_count := st1.error_count + 1 }
    else
      { st1 with
          ledger := st1.ledger ++ [⟨f.tenant_code, h, f.path, none⟩]
          known_hashes := st1.known_hashes ++ [(f.tenant_code, h)]
          processed_count := st1.processed_count + segs.length }
  else
    let ds := simpleDisposition env f
    let doc : DocumentRow :=
      { id := st.next_doc_id, tenant := f.tenant_code, content := f.bytes
        sha256_hash := h, employee := ds.1, status := ds.2 }
    let st1 := { st with documents := st.documents ++ [doc]
                         next_doc_id := st.next_doc_id + 1 }
    if st1.ledger.any (fun e => e.sha256_hash == h) then
      { st1 with error_count := st1.error_count + 1 }
    else
      { st1 with
          ledger := st1.ledger ++ [⟨f.tenant_code, h, f.path, some doc.id⟩]
          known_hashes := st1.known_hashes ++ [(f.tenant_code, h)]
          processed_count := st1.processed_count + 1 }

/-- Number of ledger rows recording a given content hash. -/
def ledgerCount (st : ScanState) (h : Bytes) : Nat :=
  (st.ledger.filter (fun e => e.sha256_hash == h)).length

/-- Number of document rows holding a given content. -/
def docCountFor (st : ScanState) (b : Bytes) : Nat :=
  (st.documents.filter (fun d => d.content == b)).length

/-! ## Concrete instances used by the example-level theorems -/

/-- The pages of a segment list, in order. -/
def segPages : List Segment → List Nat
  | [] => []
  | s :: rest => s.pages ++ segPages rest

/-- A regex engine that matches nothing — usable because the concrete
rules below use the `EXACT` algorithm only. -/
def noRegex : String → String → Bool → Bool := fun _ _ _ => false

/-- A global matching rule (priority 10, `EXACT`, assigns a document
type). -/
def ruleGlobalEx : MatchingRule :=
  { is_active := true, priority := 10, tenant := none,
    algorithm := .EXACT, match_pattern := "lohn", is_case_sensitive := false,
    assign_document_type := some "G-TYPE", assign_employee := none,
    assign_status := none, assign_tags := [] }

/-- A tenant-specific matching rule with the *same* priority 10, matching
the same text, assigning a different document type. -/
def ruleTenantEx : MatchingRule :=
  { is_active := true, priority := 10, tenant := some "00000001",
    algorithm := .EXACT, match_pattern := "lohn", is_case_sensitive := false,
    assign_document_type := some "T-TYPE", assign_employee := none,
    assign_status := none, assign_tags := [] }

/-- An unclassified document whose filename both example rules match. -/
def docEx : ClassifyDoc :=
  { original_filename := "Lohnschein.pdf", title := "",
    document_type := none, employee := none, status := "UNASSIGNED",
    tags := [] }

/-- Extractor input where page 0 decodes to a payload that yields no
employee id and the alarm fires while page 1 is being decoded. -/
def dmCounterInput : DmInput :=
  { pages := [["x"], ["y"]], timeoutBudget := some 1, failBudget := none }

/-- A scan environment for non-PDF files: no pages, no personnel names,
no resolvable employees. -/
def envEx : ScanEnv :=
  { pageIds := fun _ => [], isPersonnelName := fun _ => false,
    segmentBytes := fun b _ => b, findEmp := fun _ _ => false,
    dmOutcome := fun _ =>
      { success := false, error := none, codes := [], employee_ids := [] } }

/-- An empty scan state. -/
def st0Ex : ScanState :=
  { documents := [], ledger := [], known_hashes := [],
    processed_count := 0, already_processed_count := 0, error_count := 0,
    next_doc_id := 0 }

/-- Two files with identical bytes at different paths of one scope. -/
def f1Ex : ScanFile := { path := "a.txt", tenant_code := "00000001", bytes := [1, 2, 3] }

/-- See `f1Ex`. -/
def f2Ex : ScanFile := { path := "b.txt", tenant_code := "00000001", bytes := [1, 2, 3] }

/-- A file with `f1Ex`'s bytes under a different scope folder. -/
def f2CrossEx : ScanFile := { path := "c.txt", tenant_code := "00000002", bytes := [1, 2, 3] }

end DMS

namespace DMS

/-! # Theorems -/

/-! ## Segmenter theorems (claims C1, C2) -/

theorem segPages_append (a b : List Segment) :
    segPages (a ++ b) = segPages a ++ segPages b := by
  induction a with
  | nil => simp [segPages]
  | cons s rest ih => simp [segPages, ih]

theorem groupPagesAux_segPages (ids : List (Option String)) :
    ∀ (i : Nat) (cur : Segment) (acc : List Segment),
      segPages (groupPagesAux ids i cur acc) =
        segPages acc ++ cur.pages ++ List.range' i ids.length := by
  induction ids with
  | nil =>
      intro i cur acc
      by_cases h : cur.pages.isEmpty
      · simp [groupPagesAux, h, List.isEmpty_iff.mp h]
      · simp [groupPagesAux, h, segPages_append, segPages]
  | cons pid rest ih =>
      intro i cur acc
      cases pid with
      | none =>
          simp only [groupPagesAux, ih, List.length_cons, List.range'_succ]
          simp
      | some e =>
          by_cases hne : some e ≠ cur.employee_id
          · simp only [groupPagesAux, if_pos hne, ih, List.length_cons,
              List.range'_succ]
            by_cases hp : cur.pages.isEmpty
            · simp [hp, List.isEmpty_iff.mp hp]
            · simp [hp, segPages_append, segPages]
          · simp only [groupPagesAux, if_neg hne, ih, List.length_cons,
              List.range'_succ]
            simp

/-- C1: the segmenter, given the per-page detected employee ids, partitions
the pages in order into contiguous segments (the segments' page lists
concatenate, in order, to the full page range), and on detected ids
`[A, A, null, B, B]` it produces exactly two segments: pages 0-2 (the
undetected page 3 of the claim's 1-based count carried forward into A's
segment) attributed to A and pages 3-4 attributed to B. -/
theorem C1_segmenter_contiguous_partition :
    (∀ ids : List (Option String),
        segPages (groupPages ids) = List.range ids.length)
    ∧ split_pdf_by_datamatrix [some "A", some "A", none, some "B", some "B"]
        = [⟨some "A", [0, 1, 2]⟩, ⟨some "B", [3, 4]⟩] := by
  constructor
  · intro ids
    have h := groupPagesAux_segPages ids 0 ⟨none, []⟩ []
    simpa [groupPages, segPages, List.range_eq_range'] using h
  · decide

/-- C2: if after grouping at most one segment has a non-null employee id,
the splitter returns no sub-documents (the document is left unsplit); in
particular detected ids `[A, null, A, null]` group into the single segment
`A → pages 0-3` and produce no split. -/
theorem C2_no_split_rule :
    (∀ ids : List (Option String),
        ((groupPages ids).filter (fun s => s.employee_id.isSome)).length ≤ 1 →
        split_pdf_by_datamatrix ids = [])
    ∧ groupPages [some "A", none, some "A", none]
        = [⟨some "A", [0, 1, 2, 3]⟩]
    ∧ split_pdf_by_datamatrix [some "A", none, some "A", none] = [] := by
  refine ⟨?_, by decide, by decide⟩
  intro ids h
  unfold split_pdf_by_datamatrix
  by_cases hlen : ids.length ≤ 1
  · simp [hlen]
  · simp only [if_neg hlen]
    simp [h]

theorem C2_no_split_rule_witness :
    split_pdf_by_datamatrix [some "A", none, none] = [] :=
  C2_no_split_rule.1 [some "A", none, none] (by decide)

/-! ## Retention calculator theorems (claim C3) -/

/-- C3: the retention calculator returns null when `retention_years` is 0;
for trigger `EXIT` the file's closing date plus the retention years (null
when the file is not closed); for `CREATION` the entry's creation date
plus the retention years; for `DOCUMENT_DATE` the entry's document date
plus the retention years, falling back to the creation date; and on the
concrete inputs of the claim: 10 years from a file closed 2025-01-15 is
2035-01-15, and 3 years from a creation date 2024-06-01 is 2027-06-01. -/
theorem C3_retention_calculator :
    (∀ (e : PersonnelFileEntryRec) (pf : PersonnelFileRec),
        e.category.retention_years = 0 →
        calculate_entry_retention_date e pf = none)
    ∧ (∀ (e : PersonnelFileEntryRec) (pf : PersonnelFileRec) (c : Date),
        e.category.retention_years ≠ 0 →
        e.category.retention_trigger = .EXIT → pf.closed_at = some c →
        calculate_entry_retention_date e pf
          = some (addYears c e.category.retention_years))
    ∧ (∀ (e : PersonnelFileEntryRec) (pf : PersonnelFileRec),
        e.category.retention_years ≠ 0 →
        e.category.retention_trigger = .EXIT → pf.closed_at = none →
        calculate_entry_retention_date e pf = none)
    ∧ (∀ (e : PersonnelFileEntryRec) (pf : PersonnelFileRec),
        e.category.retention_years ≠ 0 →
        e.category.retention_trigger = .CREATION →
        calculate_entry_retention_date e pf
          = some (addYears e.created_at e.category.retention_years))
    ∧ (∀ (e : PersonnelFileEntryRec) (pf : PersonnelFileRec) (d : Date),
        e.category.retention_years ≠ 0 →
        e.category.retention_trigger = .DOCUMENT_DATE → e.document_date = some d →
        calculate_entry_retention_date e pf
          = some (addYears d e.category.retention_years))
    ∧ (∀ (e : PersonnelFileEntryRec) (pf : PersonnelFileRec),
        e.category.retention_years ≠ 0 →
        e.category.retention_trigger = .DOCUMENT_DATE → e.document_date = none →
        calculate_entry_retention_date e pf
          = some (addYears e.created_at e.category.retention_years))
    ∧ calculate_entry_retention_date
        ⟨⟨2025, 6, 1⟩, none, ⟨10, .EXIT⟩⟩ ⟨some ⟨2025, 1, 15⟩⟩
        = some ⟨2035, 1, 15⟩
    ∧ calculate_entry_retention_date
        ⟨⟨2024, 6, 1⟩, none, ⟨3, .CREATION⟩⟩ ⟨none⟩
        = some ⟨2027, 6, 1⟩ := by
  refine ⟨?_, ?_, ?_, ?_, ?_, ?_, by decide, by decide⟩
  · intro e pf h
    simp [calculate_entry_retention_date, h]
  · intro e pf c hy ht hc
    simp [calculate_entry_retention_date, hy, ht, hc]
  · intro e pf hy ht hc
    simp [calculate_entry_retention_date, hy, ht, hc]
  · intro e pf hy ht
    simp [calculate_entry_retention_date, hy, ht]
  · intro e pf d hy ht hd
    simp [calculate_entry_retention_date, hy, ht, hd]
  · intro e pf hy ht hd
    simp [calculate_entry_retention_date, hy, ht, hd]

theorem C3_retention_calculator_witness :
    calculate_entry_retention_date
      ⟨⟨2025, 6, 1⟩, none, ⟨10, .EXIT⟩⟩ ⟨some ⟨2025, 1, 15⟩⟩
      = some (addYears ⟨2025, 1, 15⟩ 10) :=
  C3_retention_calculator.2.1 ⟨⟨2025, 6, 1⟩, none, ⟨10, .EXIT⟩⟩
    ⟨some ⟨2025, 1, 15⟩⟩ ⟨2025, 1, 15⟩ (by decide) rfl rfl

/-! ## Distributed lock theorem (claim C7)

The claim says `with_lock` never raises when the coordination store is
unreachable.  The code's own comment (tasks.py 131) confirms the intent —
"Bei Verbindungsfehler: Lock überspringen, Task trotzdem ausführen" — and
the guarded body indeed runs with the lock reported as acquired and the
failure logged at error severity; but the `finally:` block then reads the
local `acquired`, which the failed `client.set` call never bound, so the
context manager raises `UnboundLocalError` to its caller on exit.  The
theorem evaluates the embedding at that failing input. -/

/-- C7: on a connection error during acquisition the lock reports itself
as acquired (`True` is yielded), the guarded job runs, and the failure is
logged at error severity — but, contrary to the claim, an exception
(`UnboundLocalError`, from the `if acquired:` in `finally:` reading a
local that was never bound) propagates to the caller when the `with`
block exits. -/
theorem C7_lock_conn_error_runs_body_but_raises_on_exit :
    distributed_lock .connError =
      { enteredWith := true, bodyRan := true, errorLogged := true,
        exitException := some "UnboundLocalError" } := rfl

/-! ## Entry numbering theorems (claim C8) -/

theorem le_foldr_max (ns : List Nat) : ∀ n ∈ ns, n ≤ ns.foldr max 0 := by
  induction ns with
  | nil => intro n hn; cases hn
  | cons m t ih =>
      intro n hn
      rcases List.mem_cons.mp hn with h | h
      · subst h; exact le_max_left _ _
      · exact le_trans (ih n h) (le_max_right _ _)

theorem mem_numbersFor_of_row {db : List PFEntryRow} {pf : Nat}
    {r : PFEntryRow} (hr : r ∈ db) (hpf : r.personnel_file = pf) :
    r.entry_number ∈ numbersFor db pf := by
  exact List.mem_map.mpr ⟨r, List.mem_filter.mpr ⟨hr, by simp [hpf]⟩, rfl⟩

theorem pfe_save_conflict_free (db : List PFEntryRow) (pf n : Nat)
    (hgt : ∀ m ∈ numbersFor db pf, m < n) :
    db.any (fun r => r.personnel_file == pf && r.entry_number == n) = false := by
  rw [List.any_eq_false]
  intro r hr
  simp only [Bool.and_eq_true, beq_iff_eq, not_and]
  intro hpf hn
  have hmem := mem_numbersFor_of_row hr hpf
  rw [hn] at hmem
  exact lt_irrefl n (hgt n hmem)

/-- C8: a newly created entry with no preset number receives
`max(existing entry numbers for that personnel file) + 1`; the first entry
of a file receives 1; and any successful save — automatic or preset
numbering alike — preserves uniqueness of `(personnel_file,
entry_number)`. -/
theorem C8_entry_numbering :
    (∀ (db : List PFEntryRow) (pf : Nat), numbersFor db pf = [] →
        pfe_save db pf none = .ok (db ++ [⟨pf, 1⟩], 1))
    ∧ (∀ (db : List PFEntryRow) (pf : Nat), numbersFor db pf ≠ [] →
        pfe_save db pf none =
          .ok (db ++ [⟨pf, (numbersFor db pf).foldr max 0 + 1⟩],
               (numbersFor db pf).foldr max 0 + 1))
    ∧ (∀ (db : List PFEntryRow) (pf : Nat) (preset : Option Nat)
          (db' : List PFEntryRow) (n : Nat),
        (db.map (fun r => (r.personnel_file, r.entry_number))).Nodup →
        pfe_save db pf preset = .ok (db', n) →
        (db'.map (fun r => (r.personnel_file, r.entry_number))).Nodup) := by
  refine ⟨?_, ?_, ?_⟩
  · intro db pf hempty
    have hn : pfe_entry_number db pf none = 1 := by
      simp [pfe_entry_number, lastEntryNumber, hempty]
    have hfree := pfe_save_conflict_free db pf 1
      (by intro m hm; rw [hempty] at hm; cases hm)
    simp [pfe_save, hn, hfree]
  · intro db pf hne
    obtain ⟨m, ms, hcons⟩ := List.exists_cons_of_ne_nil hne
    have hn : pfe_entry_number db pf none = (numbersFor db pf).foldr max 0 + 1 := by
      simp only [pfe_entry_number, lastEntryNumber, hcons]
    have hfree := pfe_save_conflict_free db pf ((numbersFor db pf).foldr max 0 + 1)
      (by intro k hk; exact Nat.lt_succ_of_le (le_foldr_max _ k hk))
    simp [pfe_save, hn, hfree]
  · intro db pf preset db' n hnodup hsave
    unfold pfe_save at hsave
    by_cases hany : db.any (fun r =>
        r.personnel_file == pf && r.entry_number == pfe_entry_number db pf preset) = true
    · rw [if_pos hany] at hsave; cases hsave
    · rw [if_neg hany] at hsave
      injection hsave with h1
      injection h1 with hdb hn
      subst hdb
      rw [List.map_append]
      rw [List.nodup_append]
      refine ⟨hnodup, by simp, ?_⟩
      intro x hx hx'
      simp only [List.map_cons, List.map_nil, List.mem_singleton] at hx'
      subst hx'
      obtain ⟨r, hr, hpair⟩ := List.mem_map.mp hx
      have hpf : r.personnel_file = pf := (Prod.mk.injEq _ _ _ _ ▸ hpair).1
      have hnum : r.entry_number = pfe_entry_number db pf preset :=
        (Prod.mk.injEq _ _ _ _ ▸ hpair).2
      have : db.any (fun r =>
          r.personnel_file == pf && r.entry_number == pfe_entry_number db pf preset) = true := by
        rw [List.any_eq_true]
        exact ⟨r, hr, by simp [hpf, hnum]⟩
      exact hany this

theorem C8_entry_numbering_witness :
    pfe_save [] 7 none = .ok ([⟨7, 1⟩], 1) ∧
    pfe_save [⟨7, 1⟩, ⟨7, 5⟩, ⟨3, 9⟩] 7 none = .ok
      ([⟨7, 1⟩, ⟨7, 5⟩, ⟨3, 9⟩] ++ [⟨7, 6⟩], 6) :=
  ⟨C8_entry_numbering.1 [] 7 (by decide),
   by
    have h := C8_entry_numbering.2.1 [⟨7, 1⟩, ⟨7, 5⟩, ⟨3, 9⟩] 7 (by decide)
    simpa using h⟩

/-! ## Pattern classifier theorems (claim C5)

The claim asserts that evaluation order is priority descending *and*, at
equal priority, tenant-specific before global rules.  The query
(tasks.py 28-30) orders by `-priority` only; at equal priority the
database may deliver the global rule first, and then the global rule's
assignments — not the tenant rule's — are applied.  The counterexample
exhibits two equal-priority matching rules and an admissible delivery
order under which the global rule wins. -/

theorem auto_classify_first_match (regexMatch : String → String → Bool → Bool)
    (rules : List MatchingRule) (doc : ClassifyDoc) :
    auto_classify_document regexMatch rules doc =
      match rules.find? (fun r => ruleMatches regexMatch r (searchTextOf doc)) with
      | some r => (applyRule r doc, true)
      | none => (doc, false) := by
  induction rules with
  | nil => simp [auto_classify_document]
  | cons r rs ih =>
      by_cases h : ruleMatches regexMatch r (searchTextOf doc) = true
      · simp [auto_classify_document, List.find?_cons, h]
      · rw [Bool.not_eq_true] at h
        simp [auto_classify_document, List.find?_cons, h, ih]

theorem find?_winner_max_priority (regexMatch : String → String → Bool → Bool)
    (doc : ClassifyDoc) (t : String) :
    ∀ (rules : List MatchingRule), classifierOrder t rules →
      ∀ w, rules.find? (fun r => ruleMatches regexMatch r (searchTextOf doc)) = some w →
      ∀ r ∈ rules, ruleMatches regexMatch r (searchTextOf doc) = true →
        r.priority ≤ w.priority := by
  intro rules
  induction rules with
  | nil => intro _ w hw; cases hw
  | cons a rs ih =>
      intro horder w hw r hr hmatch
      rcases horder with ⟨hact, hpair⟩
      rw [List.pairwise_cons] at hpair
      by_cases ha : ruleMatches regexMatch a (searchTextOf doc) = true
      · rw [List.find?_cons] at hw
        rw [ha] at hw
        simp only [Option.some.injEq] at hw
        subst hw
        rcases List.mem_cons.mp hr with h | h
        · subst h; exact le_refl _
        · exact hpair.1 r h
      · rw [Bool.not_eq_true] at ha
        rw [List.find?_cons] at hw
        rw [ha] at hw
        rcases List.mem_cons.mp hr with h | h
        · subst h; rw [hmatch] at ha; cases ha
        · exact ih ⟨fun x hx => hact x (List.mem_cons_of_mem _ hx), hpair.2⟩
            w hw r h hmatch

/-- C5 (amended): rules are evaluated in the order the database delivers
them — all active, filtered to this tenant or global, sorted by priority
descending, with the tie order at equal priority left unspecified; the
first matching rule in that order wins and evaluation stops, so the
result is exactly the first match applied and no later rule's assignments
are applied; consequently the winning rule's priority is maximal among
all matching rules. -/
theorem C5_classifier_priority_first_match :
    ∀ (regexMatch : String → String → Bool → Bool) (t : String)
      (rules : List MatchingRule) (doc : ClassifyDoc),
      (auto_classify_document regexMatch rules doc =
        match rules.find? (fun r => ruleMatches regexMatch r (searchTextOf doc)) with
        | some r => (applyRule r doc, true)
        | none => (doc, false))
      ∧ (classifierOrder t rules →
          ∀ w, rules.find? (fun r => ruleMatches regexMatch r (searchTextOf doc))
                 = some w →
          ∀ r ∈ rules, ruleMatches regexMatch r (searchTextOf doc) = true →
            r.priority ≤ w.priority) :=
  fun regexMatch t rules doc =>
    ⟨auto_classify_first_match regexMatch rules doc,
     fun horder => find?_winner_max_priority regexMatch doc t rules horder⟩

theorem C5_classifier_priority_first_match_witness :
    auto_classify_document noRegex [ruleGlobalEx, ruleTenantEx] docEx
      = (applyRule ruleGlobalEx docEx, true)
    ∧ ruleTenantEx.priority ≤ ruleGlobalEx.priority := by
  have h := C5_classifier_priority_first_match noRegex "00000001"
    [ruleGlobalEx, ruleTenantEx] docEx
  refine ⟨?_, ?_⟩
  · have h1 := h.1
    rw [show ([ruleGlobalEx, ruleTenantEx].find?
        (fun r => ruleMatches noRegex r (searchTextOf docEx)))
        = some ruleGlobalEx from by decide] at h1
    exact h1
  · exact h.2 (by constructor <;> decide) ruleGlobalEx (by decide)
      ruleTenantEx (by decide) (by decide)

/-- C5, counterexample to the claim as stated: both example rules are
active, match the document and carry priority 10; `[ruleGlobalEx,
ruleTenantEx]` is an order the rule query may deliver (it satisfies
everything the code requests of the database: active, tenant-or-global,
priority descending), yet under it the *global* rule's assignment is
applied, while under the claimed canonical order (tenant-specific first
at equal priority) the tenant rule's assignment would be applied.  Hence
it is not an invariant that at equal priority scope-specific rules are
evaluated before global ones. -/
theorem C5_classifier_tie_order_counterexample :
    ¬ (∀ rules : List MatchingRule, classifierOrder "00000001" rules →
        rules.Perm [ruleTenantEx, ruleGlobalEx] →
        (auto_classify_document noRegex rules docEx).1.document_type
          = some "T-TYPE") := by
  intro hclaim
  have h := hclaim [ruleGlobalEx, ruleTenantEx]
    (by constructor <;> decide) (by decide)
  have hg : (auto_classify_document noRegex [ruleGlobalEx, ruleTenantEx] docEx).1.document_type
      = some "G-TYPE" := by decide
  rw [hg] at h
  exact absurd h (by decide)

/-! ## Barcode extractor theorems (claim C6)

The claim asserts that a per-page timeout or a decode failure yields
`success=false` or `success=true` with zero codes.  In the code a timeout
yields `success=True` together with whatever codes were already decoded
(tasks.py 231-235), so a timeout that fires after a payload without a
parseable employee id has been decoded yields `success=true` with a
*nonempty* code list — the counterexample below.  What does hold: the
function always returns its result record (every exception is caught),
`success=false` happens only with an error recorded, a timeout always
reports `success=true`, and the caller maps every result to one of the
statuses ASSIGNED / REVIEW_NEEDED / COMPANY, never a fatal error. -/

/-- Result shape invariant: `success=false` only with an error recorded,
and a recorded timeout always comes with `success=true`. -/
def dmShape (r : DmResult) : Prop :=
  (r.success = false → r.error = some "Exception") ∧
  (r.error = some "Timeout" → r.success = true)

theorem dmPagePayloads_shape (pageNum : Nat) :
    ∀ (ps : List String) (tb fb : Option Nat) (codes : List (Nat × String))
      (ids : List String) (res : DmResult),
      dmPagePayloads pageNum ps tb fb codes ids = .inl res → dmShape res := by
  intro ps
  induction ps with
  | nil => intro tb fb codes ids res h; cases h
  | cons raw more ih =>
      intro tb fb codes ids res h
      rw [dmPagePayloads] at h
      by_cases htb : tb == some 0
      · rw [if_pos htb] at h
        injection h with h
        subst h
        exact ⟨(by intro hc; simp at hc), fun _ => rfl⟩
      · rw [if_neg htb] at h
        by_cases hfb : fb == some 0
        · rw [if_pos hfb] at h
          injection h with h
          subst h
          exact ⟨fun _ => rfl, (by intro hc; simp at hc)⟩
        · rw [if_neg hfb] at h
          exact ih _ _ _ _ _ h

theorem dmPageLoop_shape :
    ∀ (pages : List (List String)) (pageNum : Nat) (tb fb : Option Nat)
      (codes : List (Nat × String)) (ids : List String),
      dmShape (dmPageLoop pages pageNum tb fb codes ids) := by
  intro pages
  induction pages with
  | nil =>
      intro pageNum tb fb codes ids
      exact ⟨(by intro hc; simp [dmPageLoop] at hc), fun _ => rfl⟩
  | cons ps rest ih =>
      intro pageNum tb fb codes ids
      rw [dmPageLoop]
      cases hstep : dmPagePayloads pageNum ps tb fb codes ids with
      | inl res => exact dmPagePayloads_shape pageNum ps tb fb codes ids res hstep
      | inr out =>
          obtain ⟨tb', fb', codes', ids'⟩ := out
          by_cases hids : ids'.isEmpty
          · simp only [hids, if_true]
            exact ih (pageNum + 1) tb' fb' codes' ids'
          · simp only [hids, if_false]
            exact ⟨(by intro hc; simp at hc), fun _ => rfl⟩

/-- C6 (amended): the extractor never raises — for every input it returns
its result record; a decode failure yields `success=false` with the error
recorded; a timeout yields `success=true` with error `'Timeout'` and the
codes decoded before the alarm (zero or more of them); and the caller maps
every extractor result to one of the statuses `ASSIGNED`,
`REVIEW_NEEDED` or `COMPANY` — a review outcome rather than a fatal
error whenever no employee is resolved. -/
theorem C6_extractor_never_fatal :
    (∀ (inp : DmInput) (maxPages : Nat),
        ((extract_employee_from_datamatrix inp maxPages).success = false →
          (extract_employee_from_datamatrix inp maxPages).error = some "Exception")
        ∧ ((extract_employee_from_datamatrix inp maxPages).error = some "Timeout" →
          (extract_employee_from_datamatrix inp maxPages).success = true))
    ∧ (∀ (dm : DmResult) (findEmp : String → Bool) (isPersonnelName : Bool),
        (pdfDisposition dm findEmp isPersonnelName).2 = "ASSIGNED"
        ∨ (pdfDisposition dm findEmp isPersonnelName).2 = "REVIEW_NEEDED"
        ∨ (pdfDisposition dm findEmp isPersonnelName).2 = "COMPANY") := by
  constructor
  · intro inp maxPages
    unfold extract_employee_from_datamatrix
    by_cases hfb : inp.failBudget == some 0
    · rw [if_pos hfb]
      exact ⟨fun _ => rfl, (by intro hc; simp at hc)⟩
    · rw [if_neg hfb]
      by_cases htb : inp.timeoutBudget == some 0
      · rw [if_pos htb]
        exact ⟨(by intro hc; simp at hc), fun _ => rfl⟩
      · rw [if_neg htb]
        exact dmPageLoop_shape _ 0 _ _ [] []
  · intro dm findEmp isPersonnelName
    unfold pdfDisposition
    by_cases h1 : (dm.success && !dm.employee_ids.isEmpty) = true
    · rw [if_pos h1]
      cases hf : dm.employee_ids.find? findEmp with
      | some e => exact Or.inl rfl
      | none => exact Or.inr (Or.inl rfl)
    · rw [if_neg h1]
      by_cases h2 : (dm.success && !dm.codes.isEmpty) = true
      · rw [if_pos h2]; exact Or.inr (Or.inl rfl)
      · rw [if_neg h2]
        by_cases h3 : isPersonnelName
        · rw [if_pos h3]; exact Or.inr (Or.inl rfl)
        · rw [if_neg h3]; exact Or.inr (Or.inr rfl)

theorem C6_extractor_never_fatal_witness :
    (extract_employee_from_datamatrix
        { pages := [], timeoutBudget := some 0, failBudget := none } 1).success
      = true
    ∧ ((pdfDisposition
          { success := false, error := some "Exception", codes := [],
            employee_ids := [] } (fun _ => false) false).2 = "ASSIGNED"
       ∨ (pdfDisposition
          { success := false, error := some "Exception", codes := [],
            employee_ids := [] } (fun _ => false) false).2 = "REVIEW_NEEDED"
       ∨ (pdfDisposition
          { success := false, error := some "Exception", codes := [],
            employee_ids := [] } (fun _ => false) false).2 = "COMPANY") :=
  ⟨(C6_extractor_never_fatal.1
      { pages := [], timeoutBudget := some 0, failBudget := none } 1).2 (by decide),
   C6_extractor_never_fatal.2
      { success := false, error := some "Exception", codes := [],
        employee_ids := [] } (fun _ => false) false⟩

/-- C6, counterexample to the claim as stated: on `dmCounterInput` —
page 0 decodes the payload `"x"`, which yields no employee id, and the
per-page alarm fires while page 1 is processed — the extractor times out
yet returns `success=true` with a *nonempty* code list, so a timeout does
not always yield `success=false` or `success=true` with zero codes. -/
theorem C6_extractor_counterexample :
    (extract_employee_from_datamatrix dmCounterInput 2).error = some "Timeout"
    ∧ ¬ ((extract_employee_from_datamatrix dmCounterInput 2).success = false
         ∨ ((extract_employee_from_datamatrix dmCounterInput 2).success = true
            ∧ (extract_employee_from_datamatrix dmCounterInput 2).codes = [])) := by
  refine ⟨by decide, ?_⟩
  intro h
  rcases h with h | ⟨_, h⟩
  · exact absurd h (by decide)
  · exact absurd h (by decide)

/-! ## Payload parser theorems (claim C10)

The claim says every non-null result consists only of decimal digits.
Python's `str.isdigit` is broader than the decimal digits: it also
accepts, e.g., the superscript `'²'`, and a payload `"²"` is returned
as-is by the `isdigit()` fast path — the counterexample below.  What
holds: every non-null result is nonempty and consists of characters
Python classifies as digits; a purely numeric (`0`-`9`) payload is
returned as-is; null and empty payloads yield null; and the function is
total (every regex search over the constant patterns is modelled by a
total scanner). -/

theorem mem_takeWhile_pred {p : Char → Bool} :
    ∀ (l : List Char), ∀ c ∈ l.takeWhile p, p c = true := by
  intro l
  induction l with
  | nil => intro c hc; cases hc
  | cons a t ih =>
      intro c hc
      rw [List.takeWhile_cons] at hc
      by_cases ha : p a = true
      · rw [if_pos ha] at hc
        rcases List.mem_cons.mp hc with h | h
        · subst h; exact ha
        · exact ih c h
      · rw [Bool.not_eq_true] at ha
        rw [ha] at hc
        cases hc

theorem pyStrIsDigit_spec {s : List Char} (h : pyStrIsDigit s = true) :
    s ≠ [] ∧ ∀ c ∈ s, pyIsDigitChar c = true := by
  unfold pyStrIsDigit at h
  rw [Bool.and_eq_true] at h
  refine ⟨?_, fun c hc => List.all_eq_true.mp h.2 c hc⟩
  intro hnil
  subst hnil
  simp at h

theorem pyIsDigitChar_of_ascii {c : Char} (h : c.isDigit = true) :
    pyIsDigitChar c = true := by
  simp [pyIsDigitChar, h]

theorem firstDigitRun_spec :
    ∀ {s r : List Char}, firstDigitRun s = some r →
      r ≠ [] ∧ ∀ c ∈ r, pyIsDigitChar c = true := by
  intro s
  induction s with
  | nil => intro r h; cases h
  | cons a t ih =>
      intro r h
      rw [firstDigitRun] at h
      by_cases ha : asciiDigit a = true
      · rw [if_pos ha] at h
        injection h with h
        subst h
        rw [List.takeWhile_cons, if_pos ha]
        refine ⟨by simp, ?_⟩
        intro c hc
        rcases List.mem_cons.mp hc with hce | hce
        · subst hce; exact pyIsDigitChar_of_ascii ha
        · exact pyIsDigitChar_of_ascii (mem_takeWhile_pred t c hce)
      · rw [Bool.not_eq_true] at ha
        rw [if_neg (by simp [ha])] at h
        exact ih h

theorem postCapture_spec (v r : List Char) (h : postCapture v = some r) :
    r ≠ [] ∧ ∀ c ∈ r, pyIsDigitChar c = true := by
  unfold postCapture at h
  by_cases hd : pyStrIsDigit v = true
  · rw [if_pos hd] at h
    injection h with h
    subst h
    exact pyStrIsDigit_spec hd
  · rw [Bool.not_eq_true] at hd
    rw [if_neg (by simp [hd])] at h
    exact firstDigitRun_spec h

theorem bindPost_spec {o : Option (List Char)} {r : List Char}
    (h : (o >>= postCapture) = some r) :
    r ≠ [] ∧ ∀ c ∈ r, pyIsDigitChar c = true := by
  cases o with
  | none => cases h
  | some v => exact postCapture_spec v r h

theorem orElse_some {α : Type} {a b : Option α} {r : α}
    (h : (a <|> b) = some r) : a = some r ∨ b = some r := by
  cases a with
  | none => right; simpa using h
  | some v => left; simpa using h

theorem tryPatterns_spec {s r : List Char} (h : tryPatterns s = some r) :
    r ≠ [] ∧ ∀ c ∈ r, pyIsDigitChar c = true := by
  unfold tryPatterns at h
  rcases orElse_some h with h | h; · exact bindPost_spec h
  rcases orElse_some h with h | h; · exact bindPost_spec h
  rcases orElse_some h with h | h; · exact bindPost_spec h
  rcases orElse_some h with h | h; · exact bindPost_spec h
  rcases orElse_some h with h | h; · exact bindPost_spec h
  rcases orElse_some h with h | h; · exact bindPost_spec h
  rcases orElse_some h with h | h; · exact bindPost_spec h
  rcases orElse_some h with h | h; · exact bindPost_spec h
  rcases orElse_some h with h | h; · exact bindPost_spec h
  rcases orElse_some h with h | h; · exact bindPost_spec h
  rcases orElse_some h with h | h; · exact bindPost_spec h
  exact bindPost_spec h

theorem findSome?_digit_field {l : List (List Char)} {r : List Char}
    (h : (l.findSome? (fun p =>
        if pyStrIsDigit p && 1 ≤ p.length && p.length ≤ 10 then some p
        else none)) = some r) :
    r ≠ [] ∧ ∀ c ∈ r, pyIsDigitChar c = true := by
  induction l with
  | nil => cases h
  | cons p rest ih =>
      rw [List.findSome?_cons] at h
      by_cases hp : (pyStrIsDigit p && 1 ≤ p.length && p.length ≤ 10) = true
      · rw [if_pos hp] at h
        injection h with h
        subst h
        rw [Bool.and_eq_true, Bool.and_eq_true] at hp
        exact pyStrIsDigit_spec hp.1.1
      · rw [Bool.not_eq_true] at hp
        rw [hp] at h
        exact ih h

theorem parseEmployeeIdChars_spec {raw : Option (List Char)} {l : List Char}
    (h : parseEmployeeIdChars raw = some l) :
    l ≠ [] ∧ ∀ c ∈ l, pyIsDigitChar c = true := by
  cases raw with
  | none => cases h
  | some s0 =>
      simp only [parseEmployeeIdChars] at h
      by_cases he : s0.isEmpty = true
      · rw [if_pos he] at h; cases h
      · rw [Bool.not_eq_true] at he
        rw [if_neg (by simp [he])] at h
        by_cases hd : pyStrIsDigit (pyStrip s0) = true
        · rw [if_pos hd] at h
          injection h with h
          subst h
          exact pyStrIsDigit_spec hd
        · rw [Bool.not_eq_true] at hd
          rw [if_neg (by simp [hd])] at h
          cases htp : tryPatterns (pyStrip s0) with
          | some v =>
              rw [htp] at h
              injection h with h
              subst h
              exact tryPatterns_spec htp
          | none =>
              rw [htp] at h
              exact findSome?_digit_field h

theorem stripLeft_of_no_ws {l : List Char} (h : ∀ c ∈ l, pyWs c = false) :
    stripLeft l = l := by
  cases l with
  | nil => rfl
  | cons c r =>
      rw [stripLeft, if_neg (by simp [h c (List.mem_cons_self c r)])]

theorem pyStrip_of_no_ws {l : List Char} (h : ∀ c ∈ l, pyWs c = false) :
    pyStrip l = l := by
  unfold pyStrip
  rw [stripLeft_of_no_ws (fun c hc => h c (List.mem_reverse.mp hc))]
  rw [List.reverse_reverse]
  exact stripLeft_of_no_ws h

theorem digit_not_ws (c : Char) (h : c.isDigit = true) : pyWs c = false := by
  by_contra hne
  rw [Bool.not_eq_false] at hne
  unfold pyWs at hne
  simp only [Bool.or_eq_true, beq_iff_eq, or_assoc] at hne
  rcases hne with h1 | h1 | h1 | h1 | h1 | h1 <;>
    (subst h1; exact absurd h (by decide))

/-- C10 (amended): `parse_employee_id_from_datamatrix` is total and for
every input returns either null or a nonempty string whose characters all
pass Python's `str.isdigit` test — the decimal digits `0`-`9`, but also
other Unicode digit characters such as the superscript `'²'`; it returns
null for null or empty input; and a purely numeric (`0`-`9`) payload is
returned as-is. -/
theorem C10_parse_id_shape :
    (∀ (raw : Option String) (s : String),
        parse_employee_id_from_datamatrix raw = some s →
        s.data ≠ [] ∧ ∀ c ∈ s.data, pyIsDigitChar c = true)
    ∧ parse_employee_id_from_datamatrix none = none
    ∧ parse_employee_id_from_datamatrix (some "") = none
    ∧ (∀ s : String, s.data ≠ [] → (∀ c ∈ s.data, Char.isDigit c = true) →
        parse_employee_id_from_datamatrix (some s) = some s) := by
  refine ⟨?_, rfl, by decide, ?_⟩
  · intro raw s h
    unfold parse_employee_id_from_datamatrix at h
    cases hc : parseEmployeeIdChars (raw.map String.data) with
    | none => rw [hc] at h; cases h
    | some l =>
        rw [hc] at h
        injection h with h
        have hspec := parseEmployeeIdChars_spec hc
        have hdata : s.data = l := by rw [← h]
        rw [hdata]
        exact hspec
  · intro s hne hdig
    have hnows : ∀ c ∈ s.data, pyWs c = false :=
      fun c hc => digit_not_ws c (hdig c hc)
    have hisEmpty : s.data.isEmpty = false := by
      cases hsd : s.data with
      | nil => exact absurd hsd hne
      | cons a t => rfl
    have hisdig : pyStrIsDigit s.data = true := by
      unfold pyStrIsDigit
      rw [Bool.and_eq_true]
      refine ⟨by rw [hisEmpty]; rfl, ?_⟩
      exact List.all_eq_true.mpr (fun c hc => pyIsDigitChar_of_ascii (hdig c hc))
    have hchars : parseEmployeeIdChars (some s.data) = some s.data := by
      simp only [parseEmployeeIdChars, hisEmpty]
      rw [if_neg (by simp)]
      rw [pyStrip_of_no_ws hnows]
      rw [if_pos hisdig]
    have hmk : String.mk s.data = s := by cases s; rfl
    unfold parse_employee_id_from_datamatrix
    simp [hchars, hmk]

theorem C10_parse_id_shape_witness :
    parse_employee_id_from_datamatrix (some "123") = some "123"
    ∧ parse_employee_id_from_datamatrix (some "") = none :=
  ⟨C10_parse_id_shape.2.2.2 "123" (by decide) (by decide),
   C10_parse_id_shape.2.2.1⟩

/-- C10, counterexample to the claim as stated: the payload `"²"` is
accepted by Python's `isdigit()` fast path and returned as-is, and it
does not consist of decimal digits. -/
theorem C10_parse_id_counterexample :
    parse_employee_id_from_datamatrix (some "²") = some "²"
    ∧ ¬ (∀ c ∈ ("²" : String).data, Char.isDigit c = true) := by
  refine ⟨by decide, ?_⟩
  intro h
  have h2 := h '²' (by decide)
  exact absurd h2 (by decide)

/-! ## Content-ledger deduplication theorems (claims C4, C9) -/

theorem any_tenant_hash_false {l : List ProcessedFile} {tc : String} {h : Bytes}
    (hl : l.any (fun e => e.sha256_hash == h) = false) :
    l.any (fun e => e.tenant == tc && e.sha256_hash == h) = false := by
  rw [List.any_eq_false] at hl ⊢
  intro e he
  have := hl e he
  simp only [Bool.and_eq_true, not_and]
  intro _
  intro hc
  exact this hc

theorem process_skip_mem (env : ScanEnv) (st : ScanState) (f : ScanFile)
    (h1 : st.known_hashes.any (fun p => p == (f.tenant_code, f.bytes)) = true) :
    process_single_file env st f =
      { st with already_processed_count := st.already_processed_count + 1 } := by
  unfold process_single_file
  simp only [calculate_sha256_chunked]
  rw [if_pos h1]

theorem process_skip_db (env : ScanEnv) (st : ScanState) (f : ScanFile)
    (h1 : st.known_hashes.any (fun p => p == (f.tenant_code, f.bytes)) = false)
    (h2 : st.ledger.any (fun e =>
        e.tenant == f.tenant_code && e.sha256_hash == f.bytes) = true) :
    process_single_file env st f =
      { st with already_processed_count := st.already_processed_count + 1 } := by
  unfold process_single_file
  simp only [calculate_sha256_chunked]
  rw [if_neg (by simp [h1]), if_pos h2]

theorem process_fresh_spec (env : ScanEnv) (st : ScanState) (f : ScanFile)
    (h1 : st.known_hashes.any (fun p => p == (f.tenant_code, f.bytes)) = false)
    (h2 : st.ledger.any (fun e => e.sha256_hash == f.bytes) = false) :
    ∃ d : Option Nat,
      (process_single_file env st f).ledger
          = st.ledger ++ [⟨f.tenant_code, f.bytes, f.path, d⟩]
      ∧ (process_single_file env st f).known_hashes
          = st.known_hashes ++ [(f.tenant_code, f.bytes)]
      ∧ (process_single_file env st f).already_processed_count
          = st.already_processed_count
      ∧ (process_single_file env st f).error_count = st.error_count
      ∧ (takesSplitPath env f = false →
          (process_single_file env st f).documents = st.documents ++
            [⟨st.next_doc_id, f.tenant_code, f.bytes, f.bytes,
              (simpleDisposition env f).1, (simpleDisposition env f).2⟩]) := by
  unfold process_single_file
  simp only [calculate_sha256_chunked]
  rw [if_neg (by simp [h1]), if_neg (by simp [any_tenant_hash_false h2])]
  by_cases hsplit : takesSplitPath env f = true
  · rw [if_pos hsplit]
    refine ⟨none, ?_⟩
    rw [if_neg (by simp [h2])]
    refine ⟨rfl, rfl, rfl, rfl, ?_⟩
    intro hc
    rw [hsplit] at hc
    cases hc
  · rw [Bool.not_eq_true] at hsplit
    rw [if_neg (by simp [hsplit])]
    refine ⟨some st.next_doc_id, ?_⟩
    rw [if_neg (by simp [h2])]
    exact ⟨rfl, rfl, rfl, rfl, fun _ => rfl⟩

theorem process_error_spec (env : ScanEnv) (st : ScanState) (f : ScanFile)
    (h1 : st.known_hashes.any (fun p => p == (f.tenant_code, f.bytes)) = false)
    (h2 : st.ledger.any (fun e =>
        e.tenant == f.tenant_code && e.sha256_hash == f.bytes) = false)
    (h3 : st.ledger.any (fun e => e.sha256_hash == f.bytes) = true) :
    (process_single_file env st f).ledger = st.ledger
    ∧ (process_single_file env st f).known_hashes = st.known_hashes
    ∧ (process_single_file env st f).error_count = st.error_count + 1
    ∧ (process_single_file env st f).already_processed_count
        = st.already_processed_count
    ∧ (process_single_file env st f).processed_count = st.processed_count := by
  unfold process_single_file
  simp only [calculate_sha256_chunked]
  rw [if_neg (by simp [h1]), if_neg (by simp [h2])]
  by_cases hsplit : takesSplitPath env f = true
  · rw [if_pos hsplit]
    rw [if_pos (by simpa using h3)]
    exact ⟨rfl, rfl, rfl, rfl, rfl⟩
  · rw [Bool.not_eq_true] at hsplit
    rw [if_neg (by simp [hsplit])]
    rw [if_pos (by simpa using h3)]
    exact ⟨rfl, rfl, rfl, rfl, rfl⟩

/-- C4: for two scanned files of the same scope with identical bytes at
different paths, starting from a state that has not seen the content: the
second file is counted as already processed (skipped), not processed and
not an error; it creates no document and no ledger row; exactly one
ledger row for the content exists afterwards; on the normal
(non-split) path exactly one document holding the content was created;
and — the database re-check — a file whose scope already has a ledger
row for its hash is skipped without creating anything, even when the
in-memory hash cache misses it, which is what protects the window just
before a new document is committed. -/
theorem C4_content_addressed_dedup :
    ∀ (env : ScanEnv) (st0 : ScanState) (f1 f2 : ScanFile),
      f1.bytes = f2.bytes →
      f1.path ≠ f2.path →
      f1.tenant_code = f2.tenant_code →
      st0.known_hashes.any (fun p => p == (f1.tenant_code, f1.bytes)) = false →
      st0.ledger.any (fun e => e.sha256_hash == f1.bytes) = false →
      (process_single_file env (process_single_file env st0 f1) f2).already_processed_count
          = (process_single_file env st0 f1).already_processed_count + 1
      ∧ (process_single_file env (process_single_file env st0 f1) f2).processed_count
          = (process_single_file env st0 f1).processed_count
      ∧ (process_single_file env (process_single_file env st0 f1) f2).error_count
          = (process_single_file env st0 f1).error_count
      ∧ (process_single_file env (process_single_file env st0 f1) f2).documents
          = (process_single_file env st0 f1).documents
      ∧ (process_single_file env (process_single_file env st0 f1) f2).ledger
          = (process_single_file env st0 f1).ledger
      ∧ ledgerCount (process_single_file env (process_single_file env st0 f1) f2) f1.bytes
          = ledgerCount st0 f1.bytes + 1
      ∧ (takesSplitPath env f1 = false →
          docCountFor (process_single_file env (process_single_file env st0 f1) f2) f1.bytes
            = docCountFor st0 f1.bytes + 1)
      ∧ (∀ (st : ScanState) (f : ScanFile),
          st.ledger.any (fun e =>
            e.tenant == f.tenant_code && e.sha256_hash == f.bytes) = true →
          (process_single_file env st f).ledger = st.ledger
          ∧ (process_single_file env st f).documents = st.documents
          ∧ (process_single_file env st f).already_processed_count
              = st.already_processed_count + 1) := by
  intro env st0 f1 f2 hb hp ht hmem hled
  obtain ⟨d, hLed1, hKnown1, hAlr1, hErr1, hDocs1⟩ :=
    process_fresh_spec env st0 f1 hmem hled
  have hmem2 : (process_single_file env st0 f1).known_hashes.any
      (fun p => p == (f2.tenant_code, f2.bytes)) = true := by
    rw [hKnown1, ← ht, ← hb]
    simp [List.any_append]
  have hskip := process_skip_mem env (process_single_file env st0 f1) f2 hmem2
  rw [hskip]
  refine ⟨rfl, rfl, rfl, rfl, rfl, ?_, ?_, ?_⟩
  · show ledgerCount (process_single_file env st0 f1) f1.bytes
        = ledgerCount st0 f1.bytes + 1
    unfold ledgerCount
    rw [hLed1]
    simp [List.filter_append]
  · intro hns
    show docCountFor (process_single_file env st0 f1) f1.bytes
        = docCountFor st0 f1.bytes + 1
    unfold docCountFor
    rw [hDocs1 hns]
    simp [List.filter_append]
  · intro st f hdb
    by_cases hm : st.known_hashes.any (fun p => p == (f.tenant_code, f.bytes)) = true
    · rw [process_skip_mem env st f hm]
      exact ⟨rfl, rfl, rfl⟩
    · rw [Bool.not_eq_true] at hm
      rw [process_skip_db env st f hm hdb]
      exact ⟨rfl, rfl, rfl⟩

theorem C4_content_addressed_dedup_witness :
    (process_single_file envEx (process_single_file envEx st0Ex f1Ex) f2Ex).already_processed_count
      = (process_single_file envEx st0Ex f1Ex).already_processed_count + 1 :=
  (C4_content_addressed_dedup envEx st0Ex f1Ex f2Ex rfl (by decide) rfl rfl rfl).1

/-- C9: the Content Ledger's hash uniqueness is global (`unique=True` on
`ProcessedFile.sha256_hash`), not per `(scope, hash)`, while the
pre-insert duplicate check filters by scope.  Hence for the same bytes
under two different scope folders the second scope's check misses, its
ledger insert violates the constraint, and the second file is recorded as
an error — neither as a skip nor as a processed new document — with only
the first scope's ledger row existing for that content. -/
theorem C9_global_hash_unique_cross_scope_error :
    ∀ (env : ScanEnv) (st0 : ScanState) (f1 f2 : ScanFile),
      f1.bytes = f2.bytes →
      f1.tenant_code ≠ f2.tenant_code →
      st0.known_hashes.any (fun p => p == (f1.tenant_code, f1.bytes)) = false →
      st0.known_hashes.any (fun p => p == (f2.tenant_code, f2.bytes)) = false →
      st0.ledger.any (fun e => e.sha256_hash == f1.bytes) = false →
      (process_single_file env (process_single_file env st0 f1) f2).error_count
          = (process_single_file env st0 f1).error_count + 1
      ∧ (process_single_file env (process_single_file env st0 f1) f2).already_processed_count
          = (process_single_file env st0 f1).already_processed_count
      ∧ (process_single_file env (process_single_file env st0 f1) f2).processed_count
          = (process_single_file env st0 f1).processed_count
      ∧ (process_single_file env (process_single_file env st0 f1) f2).ledger
          = (process_single_file env st0 f1).ledger
      ∧ ledgerCount (process_single_file env (process_single_file env st0 f1) f2) f1.bytes
          = ledgerCount st0 f1.bytes + 1 := by
  intro env st0 f1 f2 hb htn hmem1 hmem2 hled
  obtain ⟨d, hLed1, hKnown1, hAlr1, hErr1, hDocs1⟩ :=
    process_fresh_spec env st0 f1 hmem1 hled
  have hpairne : ((f1.tenant_code, f1.bytes) == (f2.tenant_code, f2.bytes)) = false := by
    rw [beq_eq_false_iff_ne]
    intro hc
    exact htn (congrArg Prod.fst hc)
  have hmem2' : (process_single_file env st0 f1).known_hashes.any
      (fun p => p == (f2.tenant_code, f2.bytes)) = false := by
    rw [hKnown1, List.any_append]
    rw [hmem2]
    simp [hpairne]
  have htenantne : (f1.tenant_code == f2.tenant_code) = false := by
    rw [beq_eq_false_iff_ne]
    exact htn
  have hdb2 : (process_single_file env st0 f1).ledger.any
      (fun e => e.tenant == f2.tenant_code && e.sha256_hash == f2.bytes) = false := by
    rw [hLed1, List.any_append]
    have hled2 : st0.ledger.any (fun e => e.sha256_hash == f2.bytes) = false := by
      rw [← hb]
      exact hled
    rw [any_tenant_hash_false hled2]
    simp [htenantne]
  have hglob2 : (process_single_file env st0 f1).ledger.any
      (fun e => e.sha256_hash == f2.bytes) = true := by
    rw [hLed1, List.any_append]
    simp [← hb]
  obtain ⟨hL, hK, hE, hA, hP⟩ :=
    process_error_spec env (process_single_file env st0 f1) f2 hmem2' hdb2 hglob2
  refine ⟨hE, hA, hP, hL, ?_⟩
  unfold ledgerCount
  rw [hL, hLed1]
  simp [List.filter_append]

theorem C9_global_hash_unique_cross_scope_error_witness :
    (process_single_file envEx (process_single_file envEx st0Ex f1Ex) f2CrossEx).error_count
      = (process_single_file envEx st0Ex f1Ex).error_count + 1 :=
  (C9_global_hash_unique_cross_scope_error envEx st0Ex f1Ex f2CrossEx rfl
    (by decide) rfl rfl rfl).1

end DMS
